import Mathlib

/-!
Shallow embedding of `src/CurrencyNormalizer/lambda_function.py`
(currency-normalization AWS Lambda) and proofs about the claims of its
specification.

Modelling conventions:
* CSV rows (Python dicts produced by `csv.DictReader`) are association
  lists `List (String × String)`; lookup returns the first binding and
  update rewrites in place (matching Python dict semantics, where keys
  are unique and update preserves position while a fresh key appends).
* Python `Decimal` values that flow through arithmetic are modelled as
  exact rationals represented by an integer numerator over a natural
  denominator (`Frac`), interpreted into `ℚ` by `Frac.toRat` for
  value-level statements.  The only `Decimal` ever rendered back to a
  string is the result of `quantize(Decimal(0.01), ROUND_HALF_UP)`,
  whose exponent is always two fractional digits, so rendered prices are
  modelled as an integer number of cents plus `centsToString`.  The
  28-significant-digit context rounding of Python `Decimal` arithmetic
  is not modelled: it cannot change a two-decimal quantization except
  for values within relative distance 10^-26 of a tie, and no claim
  involves such values.
* Fallible Python code (raised exceptions) is modelled with
  `Except String` where the exception escapes the function, and with
  `Option`/skipping where the source catches the exception internally.
* External collaborators (S3 reads, the rate-feed HTTP response, the
  current UTC timestamp) are parameters of the embedded functions.
-/

namespace CurrencyNormalizer

/-- Decidable equality for `Except`, used to evaluate the embedded
fallible functions on concrete inputs. -/
instance exceptDecEq {ε α : Type} [DecidableEq ε] [DecidableEq α] :
    DecidableEq (Except ε α) := fun x y =>
  match x, y with
  | .ok a, .ok b =>
    if h : a = b then .isTrue (by rw [h])
    else .isFalse (fun hh => h (Except.ok.inj hh))
  | .error a, .error b =>
    if h : a = b then .isTrue (by rw [h])
    else .isFalse (fun hh => h (Except.error.inj hh))
  | .ok _, .error _ => .isFalse (fun hh => Except.noConfusion hh)
  | .error _, .ok _ => .isFalse (fun hh => Except.noConfusion hh)

/-- An exact rational: `num / den`.  Stands for a Python `Decimal` value
(every finite decimal is such a fraction, with a power-of-ten
denominator); kept unnormalized so that all operations are plain integer
arithmetic. -/
structure Frac where
  num : Int
  den : Nat
deriving DecidableEq

/-- The rational value of a `Frac`. -/
def Frac.toRat (x : Frac) : ℚ := (x.num : ℚ) / (x.den : ℚ)

/-- Exact product, as Python `Decimal` multiplication. -/
def Frac.mul (a b : Frac) : Frac := ⟨a.num * b.num, a.den * b.den⟩

/-- Exact quotient, as Python `Decimal` division (the context rounding
to 28 significant digits is not modelled, see the file header).  The
sign of the divisor is moved into the numerator so the denominator stays
a natural number. -/
def Frac.div (a b : Frac) : Frac :=
  if b.num < 0 then ⟨-(a.num * (b.den : Int)), a.den * b.num.natAbs⟩
  else ⟨a.num * (b.den : Int), a.den * b.num.natAbs⟩

/-- Association-list lookup with string keys: the value of the first
binding of `k`, as Python `d[k]` / `d.get(k)` on a dict. -/
def getKey? {α : Type} : List (String × α) → String → Option α
  | [], _ => none
  | p :: rest, k => if p.1 = k then some p.2 else getKey? rest k

/-- A CSV row as produced by `csv.DictReader`: an ordered mapping from
field names to string values. -/
abbrev Row := List (String × String)

/-- Python `row[k]` (successful lookup). -/
def Row.get? (r : Row) (k : String) : Option String := getKey? r k

/-- Python `k in row`. -/
def Row.hasKey : Row → String → Bool
  | [], _ => false
  | p :: rest, k => p.1 == k || Row.hasKey rest k

/-- Python `row[k] = v` on a dict: if the key is present its binding is
rewritten in place, otherwise the binding is appended at the end. -/
def Row.set (r : Row) (k v : String) : Row :=
  if r.hasKey k then r.map (fun p => if p.1 = k then (k, v) else p)
  else r ++ [(k, v)]

/-- The exchange-rate table built by `fetch_exchange_rates`: currency
code to multiplier into the reference currency. -/
abbrev RateTable := List (String × Frac)

/-- Digits of a numeral read most-significant first. -/
def digitsToNat (l : List Char) : Nat :=
  l.foldl (fun a c => a * 10 + (c.toNat - 48)) 0

/-- Parse an unsigned decimal literal `digits[.digits]` with at least one
digit, returning the coefficient and the number of fractional digits. -/
def parseUnsigned (cs : List Char) : Option (Nat × Nat) :=
  let ip := cs.takeWhile Char.isDigit
  let rest := cs.dropWhile Char.isDigit
  match rest with
  | [] => if ip.isEmpty then none else some (digitsToNat ip, 0)
  | c :: fp =>
    if c = '.' && fp.all Char.isDigit && !(ip.isEmpty && fp.isEmpty) then
      some (digitsToNat (ip ++ fp), fp.length)
    else none

/-- Python `Decimal(s)` (the constructor used on the `price` field),
restricted to the finite exponent-free literals `[+|-]digits[.digits]`;
scientific notation, infinities and NaN are outside the price domain and
parse to `none` here, as does any other non-numeric string.  Returns the
exact rational value of the literal. -/
def parseDec (s : String) : Option Frac :=
  match s.toList with
  | '-' :: cs => (parseUnsigned cs).map (fun p => ⟨-(p.1 : Int), 10 ^ p.2⟩)
  | '+' :: cs => (parseUnsigned cs).map (fun p => ⟨(p.1 : Int), 10 ^ p.2⟩)
  | cs => (parseUnsigned cs).map (fun p => ⟨(p.1 : Int), 10 ^ p.2⟩)

/-- Round a fraction to the nearest integer with ties away from zero:
the effect of `ROUND_HALF_UP` in Python `decimal`. -/
def roundHalfUpAway (x : Frac) : Int :=
  let t := x.num.natAbs
  let m := (2 * t + x.den) / (2 * x.den)
  if x.num < 0 then -(m : Int) else (m : Int)

/-- `convert_currency(price, exchange_rate)` from the source:
`(price * exchange_rate).quantize(Decimal(0.01), rounding=ROUND_HALF_UP)`.
The quantized decimal always has exponent two, so it is returned as its
integer number of cents. -/
def convert_currency (price exchange_rate : Frac) : Int :=
  roundHalfUpAway ⟨price.num * exchange_rate.num * 100, price.den * exchange_rate.den⟩

/-- Python `str` of a two-fractional-digit `Decimal` given as a signed
number of cents. -/
def centsToString (c : Int) : String :=
  let sign := if c < 0 then "-" else ""
  let t := c.natAbs
  let f := t % 100
  sign ++ toString (t / 100) ++ "." ++ (if f < 10 then "0" else "") ++ toString f

/-- `fetch_exchange_rates` from the source, with the `rates` mapping of
the feed response as input (absent reference rate = key not present).
Raises (`Except.error`) when the USD rate is missing; otherwise builds
the dict comprehension over `rates.items()` guarded by `if rate`, which
keeps exactly the currencies with a truthy (nonzero) raw rate and maps
each to `Decimal(usd_rate) / Decimal(rate)`. -/
def fetch_exchange_rates (rates : List (String × Frac)) : Except String RateTable :=
  match getKey? rates "USD" with
  | none => .error "Missing exchange rate for USD"
  | some usd_rate =>
    .ok ((rates.filter (fun p => p.2.num != 0)).map (fun p => (p.1, Frac.div usd_rate p.2)))

/-- `process_csv_data(csv_data, exchange_rates)` from the source, with
the row-processing timestamp `datetime.utcnow().isoformat()` passed in as
`now`.  A row with both `price` and `currency` gets its price parsed
(`Decimal(row[price])`, whose `InvalidOperation` exception escapes the
whole function: there is no per-row handler), converted when the currency
is in the table, stamped with `creationDate`, and appended; a row lacking
either field is neither stamped nor appended. -/
def process_csv_data (exchange_rates : RateTable) (now : String) :
    List Row → Except String (List Row)
  | [] => .ok []
  | row :: rest =>
    if row.hasKey "price" && row.hasKey "currency" then
      match parseDec ((row.get? "price").getD "") with
      | none => .error "InvalidOperation"
      | some price =>
        let currency := (row.get? "currency").getD ""
        let row1 :=
          match getKey? exchange_rates currency with
          | some rate =>
            (row.set "price" (centsToString (convert_currency price rate))).set
              "currency" "USD"
          | none => row
        match process_csv_data exchange_rates now rest with
        | .ok out => .ok (row1.set "creationDate" now :: out)
        | .error e => .error e
    else
      process_csv_data exchange_rates now rest

/-- One iteration of the `for item in items` loop of
`upload_to_dynamodb`.  Returns the item as put to the table (or `none`
when the per-item `try/except` caught a `KeyError`) together with the
item after its in-place mutations (`item[zpid] = str(item[zpid])`,
`item[creationDate] = str(item[creationDate])`; values are already
strings here, so `str` is the identity on the looked-up value).  A
missing `zpid` raises before any mutation; a missing `creationDate`
raises after the `zpid` mutation. -/
def dynamo_put_row (item : Row) : Option Row × Row :=
  match item.get? "zpid" with
  | none => (none, item)
  | some z =>
    let item1 := Row.set item "zpid" z
    match item1.get? "creationDate" with
    | none => (none, item1)
    | some c =>
      let item2 := Row.set item1 "creationDate" c
      (some item2, item2)

/-- `upload_to_dynamodb(table, items)` from the source: the list of
items put to the table (per-item exceptions are caught and logged, the
loop continues) and the list of items after their in-place mutations
(the same dict objects later serialized to the archive). -/
def upload_to_dynamodb (items : List Row) : List Row × List Row :=
  ((items.map dynamo_put_row).filterMap Prod.fst,
   (items.map dynamo_put_row).map Prod.snd)

/-- `write_processed_csv_to_s3(bucket, key, data)` from the source:
returns the object written by `put_object` as `(fieldnames, rows)`, or
`none` when no write happened.  The whole body is wrapped in a
`try/except` that logs and swallows every exception, so the function
itself never raises.  `data[0].keys()` raises `IndexError` on an empty
list (no write); `DictWriter.writerows` raises `ValueError` on a row
with a field not in `fieldnames` (buffered before `put_object`, so again
no write). -/
def write_processed_csv_to_s3 (data : List Row) : Option (List String × List Row) :=
  match data with
  | [] => none
  | first :: _ =>
    let fieldnames := first.map Prod.fst
    if data.all (fun r => r.all (fun p => fieldnames.contains p.1)) then
      some (fieldnames, data)
    else none

/-- One entry of `event[Records]`: the S3 bucket and object key of an
inbound file. -/
structure FileRef where
  bucket : String
  key : String
deriving DecidableEq

/-- The observable outcome of `lambda_handler`: the returned
acknowledgment (`statusCode`, `body`) plus the side effects accumulated
across the per-file loop — items put to DynamoDB, objects written to the
processed bucket (key and content), and the keys of files whose
processing failed and was logged. -/
structure HandlerResult where
  statusCode : Nat
  body : String
  dynamoPuts : List Row
  s3Writes : List (String × List String × List Row)
  failedKeys : List String
deriving DecidableEq

/-- One iteration of the per-file loop of `lambda_handler`.  The `try`
covers reading, normalizing and persisting; in the embedding only the
read (`read_csv_from_s3`, an external collaborator passed in as
`readFile`) and `process_csv_data` can raise, since both persistence
functions catch their exceptions internally.  A caught exception logs
the file key and the loop continues. -/
def handle_file (exchange_rates : RateTable) (now : String)
    (readFile : FileRef → Except String (List Row))
    (acc : HandlerResult) (r : FileRef) : HandlerResult :=
  match readFile r with
  | .error _ => { acc with failedKeys := acc.failedKeys ++ [r.key] }
  | .ok csv_data =>
    match process_csv_data exchange_rates now csv_data with
    | .error _ => { acc with failedKeys := acc.failedKeys ++ [r.key] }
    | .ok processed_data =>
      let up := upload_to_dynamodb processed_data
      let w := write_processed_csv_to_s3 up.2
      { acc with
        dynamoPuts := acc.dynamoPuts ++ up.1
        s3Writes := acc.s3Writes ++ (match w with
          | some obj => [("processed_" ++ r.key, obj)]
          | none => []) }

/-- `lambda_handler(event, context)` from the source.  Inputs: the
`rates` mapping of the exchange-feed response, the `event[Records]`
list, the S3 read collaborator and the row timestamp.  The
`fetch_exchange_rates` call sits before the per-file loop and outside
any `try`, so its exception propagates out of the handler
(`Except.error`); otherwise the handler always returns the fixed
success acknowledgment with the accumulated side effects. -/
def lambda_handler (ratesResponse : List (String × Frac)) (records : List FileRef)
    (readFile : FileRef → Except String (List Row)) (now : String) :
    Except String HandlerResult :=
  match fetch_exchange_rates ratesResponse with
  | .error e => .error e
  | .ok exchange_rates =>
    .ok (records.foldl (handle_file exchange_rates now readFile)
      { statusCode := 200, body := "\"Currency normalization complete!\"",
        dynamoPuts := [], s3Writes := [], failedKeys := [] })

/-! ### Lemmas about rows as association lists -/

theorem Row.hasKey_eq_isSome (r : Row) (k : String) :
    r.hasKey k = (Row.get? r k).isSome := by
  induction r with
  | nil => rfl
  | cons p rest ih =>
    by_cases h : p.1 = k
    · simp [Row.hasKey, Row.get?, getKey?, h]
    · simp only [Row.hasKey, Row.get?, getKey?, if_neg h]
      simp only [Row.get?] at ih
      rw [← ih]
      simp [h]

theorem getKey?_map_set_self (r : Row) (k v : String) (h : Row.hasKey r k = true) :
    getKey? (r.map (fun p => if p.1 = k then (k, v) else p)) k = some v := by
  induction r with
  | nil => simp [Row.hasKey] at h
  | cons p rest ih =>
    by_cases hp : p.1 = k
    · simp [getKey?, hp]
    · simp only [Row.hasKey, Bool.or_eq_true, beq_iff_eq] at h
      rcases h with h | h
      · exact absurd h hp
      · simp only [List.map_cons, getKey?, if_neg hp]
        exact ih h

theorem getKey?_map_set_ne (r : Row) (k k2 v : String) (h : k ≠ k2) :
    getKey? (r.map (fun p => if p.1 = k then (k, v) else p)) k2 = getKey? r k2 := by
  induction r with
  | nil => rfl
  | cons p rest ih =>
    by_cases hp : p.1 = k
    · simp only [List.map_cons, if_pos hp, getKey?, if_neg h, hp]
      rw [if_neg (hp ▸ h), ih]
    · simp only [List.map_cons, if_neg hp, getKey?]
      by_cases hq : p.1 = k2
      · rw [if_pos hq, if_pos hq]
      · rw [if_neg hq, if_neg hq, ih]

theorem getKey?_eq_none_of_hasKey_false (r : Row) (k : String)
    (h : Row.hasKey r k = false) : getKey? r k = none := by
  have := Row.hasKey_eq_isSome r k
  rw [h] at this
  cases hg : Row.get? r k with
  | none => exact hg
  | some v => rw [hg] at this; simp at this

theorem getKey?_append_single (r : Row) (k k2 v : String) :
    getKey? (r ++ [(k, v)]) k2 =
      match getKey? r k2 with
      | some x => some x
      | none => if k = k2 then some v else none := by
  induction r with
  | nil => rfl
  | cons p rest ih =>
    by_cases hp : p.1 = k2
    · simp [getKey?, hp]
    · simp only [List.cons_append, getKey?, if_neg hp]
      exact ih

theorem Row.get?_set_self (r : Row) (k v : String) :
    (r.set k v).get? k = some v := by
  unfold Row.set
  by_cases h : r.hasKey k
  · rw [if_pos h]
    exact getKey?_map_set_self r k v h
  · rw [if_neg h]
    show getKey? (r ++ [(k, v)]) k = some v
    rw [getKey?_append_single,
      getKey?_eq_none_of_hasKey_false r k (Bool.not_eq_true _ ▸ h)]
    simp

theorem Row.get?_set_ne (r : Row) (k k2 v : String) (h : k ≠ k2) :
    (r.set k v).get? k2 = r.get? k2 := by
  unfold Row.set
  by_cases hk : r.hasKey k
  · rw [if_pos hk]
    exact getKey?_map_set_ne r k k2 v h
  · rw [if_neg hk]
    show getKey? (r ++ [(k, v)]) k2 = getKey? r k2
    rw [getKey?_append_single]
    cases hg : getKey? r k2 with
    | some x => rfl
    | none => simp [h]

theorem Row.hasKey_of_get?_eq_some (r : Row) (k v : String)
    (h : Row.get? r k = some v) : r.hasKey k = true := by
  rw [Row.hasKey_eq_isSome, h]
  rfl

theorem getKey?_mem {α : Type} (l : List (String × α)) (k : String) (v : α)
    (h : getKey? l k = some v) : (k, v) ∈ l := by
  induction l with
  | nil => simp [getKey?] at h
  | cons p rest ih =>
    by_cases hp : p.1 = k
    · rw [getKey?, if_pos hp] at h
      have hv : p.2 = v := Option.some.inj h
      have hkv : p = (k, v) := by
        cases p
        cases hp
        cases hv
        rfl
      rw [hkv]
      exact List.mem_cons_self _ _
    · rw [getKey?, if_neg hp] at h
      exact List.mem_cons_of_mem _ (ih h)

/-! ### Claims -/

/-- C1: for every input row whose `price` field parses as an exact
decimal and whose `currency` field is a key of the rate table, the
normalized output row has `price` equal to the string form of the
half-up two-fractional-digit rounding of `price * multiplier`, and
`currency` equal to the reference code `USD`.  Stated at the head of
the batch; the last hypothesis says the remaining rows process without
error, so that the batch has an output at all. -/
theorem claim_C1_conversion (rates : RateTable) (now : String) (row : Row)
    (rest out : List Row) (ps c : String) (p m : Frac)
    (hp : row.get? "price" = some ps) (hpar : parseDec ps = some p)
    (hc : row.get? "currency" = some c) (hm : getKey? rates c = some m)
    (hrest : process_csv_data rates now rest = .ok out) :
    ∃ row1, process_csv_data rates now (row :: rest) = .ok (row1 :: out) ∧
      row1.get? "price" = some (centsToString (convert_currency p m)) ∧
      row1.get? "currency" = some "USD" ∧
      row1.get? "creationDate" = some now := by
  have h1 : row.hasKey "price" = true := Row.hasKey_of_get?_eq_some _ _ _ hp
  have h2 : row.hasKey "currency" = true := Row.hasKey_of_get?_eq_some _ _ _ hc
  refine ⟨((row.set "price" (centsToString (convert_currency p m))).set "currency"
    "USD").set "creationDate" now, ?_, ?_, ?_, ?_⟩
  · simp only [process_csv_data, h1, h2, Bool.and_self, if_true, hp,
      Option.getD_some, hpar, hc, hm, hrest]
  · rw [Row.get?_set_ne _ _ _ _ (by decide), Row.get?_set_ne _ _ _ _ (by decide),
      Row.get?_set_self]
  · rw [Row.get?_set_ne _ _ _ _ (by decide), Row.get?_set_self]
  · rw [Row.get?_set_self]

/-- Witness for C1: the spec example, 100 EUR at multiplier 1.10
normalizing to price "110.00" in USD. -/
theorem claim_C1_witness :
    Row.get? [("price", "100"), ("currency", "EUR"), ("zpid", "123")] "price" = some "100" ∧
    parseDec "100" = some ⟨100, 1⟩ ∧
    Row.get? [("price", "100"), ("currency", "EUR"), ("zpid", "123")] "currency" = some "EUR" ∧
    getKey? [("EUR", (⟨11, 10⟩ : Frac))] "EUR" = some ⟨11, 10⟩ ∧
    process_csv_data [("EUR", ⟨11, 10⟩)] "T" [] = .ok [] ∧
    (∃ row1, process_csv_data [("EUR", ⟨11, 10⟩)] "T"
        [[("price", "100"), ("currency", "EUR"), ("zpid", "123")]] = .ok (row1 :: []) ∧
      row1.get? "price" = some (centsToString (convert_currency ⟨100, 1⟩ ⟨11, 10⟩)) ∧
      row1.get? "currency" = some "USD" ∧
      row1.get? "creationDate" = some "T") :=
  ⟨by decide, by decide, by decide, by decide, by decide,
    claim_C1_conversion [("EUR", ⟨11, 10⟩)] "T"
      [("price", "100"), ("currency", "EUR"), ("zpid", "123")] [] [] "100" "EUR"
      ⟨100, 1⟩ ⟨11, 10⟩ (by decide) (by decide) (by decide) (by decide) (by decide)⟩

/-- Counterexample to C2: a batch of one non-numeric-price row (in
fifth position) and nine valid rows does not yield the nine valid rows
normalized — `Decimal(row[price])` raises `InvalidOperation`, there is
no per-row handler in `process_csv_data`, and the whole batch errors
out with no output at all. -/
theorem claim_C2_counterexample :
    process_csv_data [("USD", ⟨1, 1⟩), ("EUR", ⟨11, 10⟩)] "T"
      [[("zpid", "1"), ("price", "10.00"), ("currency", "EUR")],
       [("zpid", "2"), ("price", "20.00"), ("currency", "EUR")],
       [("zpid", "3"), ("price", "30.00"), ("currency", "EUR")],
       [("zpid", "4"), ("price", "40.00"), ("currency", "EUR")],
       [("zpid", "5"), ("price", "not-a-number"), ("currency", "EUR")],
       [("zpid", "6"), ("price", "60.00"), ("currency", "EUR")],
       [("zpid", "7"), ("price", "70.00"), ("currency", "EUR")],
       [("zpid", "8"), ("price", "80.00"), ("currency", "EUR")],
       [("zpid", "9"), ("price", "90.00"), ("currency", "EUR")],
       [("zpid", "10"), ("price", "95.00"), ("currency", "EUR")]] =
      .error "InvalidOperation" := by decide

/-- C2 as amended: a row whose `price` field is present but not
parseable as a decimal makes the whole batch fail — the exception
escapes `process_csv_data` (to be caught only by the per-file handler
in `lambda_handler`), so no row of the file is output, rather than the
offending row alone being dropped. -/
theorem claim_C2_batch_error (rates : RateTable) (now : String) (row : Row)
    (rest : List Row) (ps : String)
    (hp : row.get? "price" = some ps) (hbad : parseDec ps = none)
    (hc : row.hasKey "currency" = true) :
    process_csv_data rates now (row :: rest) = .error "InvalidOperation" := by
  have h1 : row.hasKey "price" = true := Row.hasKey_of_get?_eq_some _ _ _ hp
  simp only [process_csv_data, h1, hc, Bool.and_self, if_true, hp,
    Option.getD_some, hbad]

/-- Witness for the amended C2. -/
theorem claim_C2_witness :
    Row.get? [("price", "abc"), ("currency", "USD")] "price" = some "abc" ∧
    parseDec "abc" = none ∧
    Row.hasKey [("price", "abc"), ("currency", "USD")] "currency" = true ∧
    process_csv_data [("USD", ⟨1, 1⟩)] "T"
      [[("price", "abc"), ("currency", "USD")],
       [("price", "1.00"), ("currency", "USD")]] = .error "InvalidOperation" :=
  ⟨by decide, by decide, by decide,
    claim_C2_batch_error [("USD", ⟨1, 1⟩)] "T" [("price", "abc"), ("currency", "USD")]
      [[("price", "1.00"), ("currency", "USD")]] "abc" (by decide) (by decide) (by decide)⟩

/-- Counterexample to C3: a row lacking both `price` and `currency` is
not passed through with a `creationDate` stamp — `process_csv_data`
never appends it, so the batch output is empty. -/
theorem claim_C3_counterexample :
    process_csv_data [("EUR", ⟨11, 10⟩)] "T" [[("name", "x")]] = .ok [] := by decide

/-- C3 as amended: a row lacking a `price` field or lacking a
`currency` field is not an error, but it is silently dropped from the
batch output (no `creationDate` is stamped, the row is simply never
appended): processing the batch with the row is the same as processing
the batch without it. -/
theorem claim_C3_row_dropped (rates : RateTable) (now : String) (row : Row)
    (rest : List Row)
    (h : (row.hasKey "price" && row.hasKey "currency") = false) :
    process_csv_data rates now (row :: rest) = process_csv_data rates now rest := by
  simp only [process_csv_data, h, Bool.false_eq_true, if_false]

/-- Witness for the amended C3: a row with a `price` but no `currency`
disappears from the output while the valid row after it survives. -/
theorem claim_C3_witness :
    (Row.hasKey [("price", "5.00"), ("name", "x")] "price" &&
      Row.hasKey [("price", "5.00"), ("name", "x")] "currency") = false ∧
    process_csv_data [("USD", ⟨1, 1⟩)] "T"
        [[("price", "5.00"), ("name", "x")],
         [("price", "1.00"), ("currency", "USD")]] =
      process_csv_data [("USD", ⟨1, 1⟩)] "T" [[("price", "1.00"), ("currency", "USD")]] :=
  ⟨by decide,
    claim_C3_row_dropped [("USD", ⟨1, 1⟩)] "T" [("price", "5.00"), ("name", "x")]
      [[("price", "1.00"), ("currency", "USD")]] (by decide)⟩

/-- Counterexample to C4: a row whose currency is not a key of the rate
table but whose price is not parseable does not pass through — the
price is parsed before the currency is looked up, `InvalidOperation`
escapes, and the whole batch errors (C4 as stated claims no error and a
pass-through output row for every row with both fields and an unknown
currency). -/
theorem claim_C4_counterexample :
    process_csv_data [("EUR", ⟨11, 10⟩)] "T"
      [[("price", "abc"), ("currency", "ZZZ")]] = .error "InvalidOperation" := by decide

/-- C4 as amended: for every row that has both fields, whose price
parses as a decimal, and whose currency code is not a key of the rate
table, the output row keeps `price` and `currency` unchanged and gains
a `creationDate` field, with no error for the unknown currency. -/
theorem claim_C4_unknown_currency (rates : RateTable) (now : String) (row : Row)
    (rest out : List Row) (ps c : String) (p : Frac)
    (hp : row.get? "price" = some ps) (hpar : parseDec ps = some p)
    (hc : row.get? "currency" = some c) (hm : getKey? rates c = none)
    (hrest : process_csv_data rates now rest = .ok out) :
    process_csv_data rates now (row :: rest) = .ok (row.set "creationDate" now :: out) ∧
    (row.set "creationDate" now).get? "price" = some ps ∧
    (row.set "creationDate" now).get? "currency" = some c := by
  have h1 : row.hasKey "price" = true := Row.hasKey_of_get?_eq_some _ _ _ hp
  have h2 : row.hasKey "currency" = true := Row.hasKey_of_get?_eq_some _ _ _ hc
  refine ⟨?_, ?_, ?_⟩
  · simp only [process_csv_data, h1, h2, Bool.and_self, if_true, hp,
      Option.getD_some, hpar, hc, hm, hrest]
  · rw [Row.get?_set_ne _ _ _ _ (by decide)]
    exact hp
  · rw [Row.get?_set_ne _ _ _ _ (by decide)]
    exact hc

/-- Witness for the amended C4: a Japanese-yen row passes through with
its original price and currency plus a timestamp. -/
theorem claim_C4_witness :
    Row.get? [("price", "5.00"), ("currency", "JPY")] "price" = some "5.00" ∧
    parseDec "5.00" = some ⟨500, 100⟩ ∧
    Row.get? [("price", "5.00"), ("currency", "JPY")] "currency" = some "JPY" ∧
    getKey? [("EUR", (⟨11, 10⟩ : Frac))] "JPY" = none ∧
    process_csv_data [("EUR", ⟨11, 10⟩)] "T" [] = .ok [] ∧
    (process_csv_data [("EUR", ⟨11, 10⟩)] "T" [[("price", "5.00"), ("currency", "JPY")]] =
        .ok (Row.set [("price", "5.00"), ("currency", "JPY")] "creationDate" "T" :: []) ∧
      (Row.set [("price", "5.00"), ("currency", "JPY")] "creationDate" "T").get? "price" =
        some "5.00" ∧
      (Row.set [("price", "5.00"), ("currency", "JPY")] "creationDate" "T").get? "currency" =
        some "JPY") :=
  ⟨by decide, by decide, by decide, by decide, by decide,
    claim_C4_unknown_currency [("EUR", ⟨11, 10⟩)] "T" [("price", "5.00"), ("currency", "JPY")]
      [] [] "5.00" "JPY" ⟨500, 100⟩ (by decide) (by decide) (by decide) (by decide) (by decide)⟩

/-! ### Lemmas about the rate-table construction -/

theorem getKey?_eq_none_of_not_mem_keys {α : Type} (l : List (String × α)) (k : String)
    (h : k ∉ l.map Prod.fst) : getKey? l k = none := by
  induction l with
  | nil => rfl
  | cons p rest ih =>
    simp only [List.map_cons, List.mem_cons] at h
    push_neg at h
    rw [getKey?, if_neg (fun hh => h.1 hh.symm)]
    exact ih h.2

theorem getKey?_transform_none (l : List (String × Frac)) (k : String) (u : Frac)
    (h : getKey? l k = none) :
    getKey? ((l.filter fun p => p.2.num != 0).map fun p => (p.1, Frac.div u p.2)) k =
      none := by
  induction l with
  | nil => rfl
  | cons p rest ih =>
    by_cases hp : p.1 = k
    · rw [getKey?, if_pos hp] at h
      exact absurd h (by simp)
    · rw [getKey?, if_neg hp] at h
      by_cases hz : p.2.num = 0
      · simp only [List.filter_cons, hz]
        simpa using ih h
      · simp only [List.filter_cons, if_pos (by simpa using hz : (p.2.num != 0) = true)]
        rw [List.map_cons, getKey?, if_neg hp]
        exact ih h

theorem getKey?_transform (l : List (String × Frac)) (k : String) (u : Frac)
    (hnd : (l.map Prod.fst).Nodup) :
    getKey? ((l.filter fun p => p.2.num != 0).map fun p => (p.1, Frac.div u p.2)) k =
      match getKey? l k with
      | none => none
      | some r => if r.num = 0 then none else some (Frac.div u r) := by
  induction l with
  | nil => rfl
  | cons p rest ih =>
    simp only [List.map_cons, List.nodup_cons] at hnd
    by_cases hp : p.1 = k
    · rw [getKey?, if_pos hp]
      by_cases hz : p.2.num = 0
      · have hcond : (p.2.num != 0) = false := by simp [hz]
        simp only [List.filter_cons, hcond, Bool.false_eq_true, if_false]
        have hnone : getKey? rest k = none :=
          getKey?_eq_none_of_not_mem_keys rest k (hp ▸ hnd.1)
        simpa [hz] using getKey?_transform_none rest k u hnone
      · simp only [List.filter_cons, if_pos (by simpa using hz : (p.2.num != 0) = true)]
        rw [List.map_cons, getKey?, if_pos hp]
        simp [hz]
    · rw [getKey?, if_neg hp]
      by_cases hz : p.2.num = 0
      · simp only [List.filter_cons, hz]
        simpa using ih hnd.2
      · simp only [List.filter_cons, if_pos (by simpa using hz : (p.2.num != 0) = true)]
        rw [List.map_cons, getKey?, if_neg hp]
        exact ih hnd.2

theorem Frac.toRat_div (a b : Frac) (hbn : b.num ≠ 0) (had : a.den ≠ 0)
    (hbd : b.den ≠ 0) : (Frac.div a b).toRat = a.toRat / b.toRat := by
  have hC : ((a.den : Int) : ℚ) ≠ 0 := by
    simp [Int.cast_ne_zero, Int.natCast_ne_zero, had]
  have hD : ((b.den : Int) : ℚ) ≠ 0 := by
    simp [Int.cast_ne_zero, Int.natCast_ne_zero, hbd]
  have hB : ((b.num : ℚ)) ≠ 0 := Int.cast_ne_zero.mpr hbn
  unfold Frac.div Frac.toRat
  by_cases hneg : b.num < 0
  · rw [if_pos hneg]
    have habs : ((b.num.natAbs : Nat) : ℚ) = -(b.num : ℚ) := by
      rw [Int.cast_natAbs]
      push_cast
      exact abs_of_neg (by exact_mod_cast hneg)
    push_cast [habs]
    field_simp
  · rw [if_neg hneg]
    have habs : ((b.num.natAbs : Nat) : ℚ) = (b.num : ℚ) := by
      rw [Int.cast_natAbs]
      push_cast
      exact abs_of_nonneg (by exact_mod_cast not_lt.mp hneg)
    push_cast [habs]
    field_simp

/-- Counterexample to C5: a snapshot whose reference (USD) raw rate is
present but zero does not make the construction fail — the `usd_rate is
None` check passes, USD itself is filtered out by `if rate`, and the
table maps every other nonzero-rate currency to a zero multiplier. -/
theorem claim_C5_counterexample :
    fetch_exchange_rates [("USD", ⟨0, 1⟩), ("EUR", ⟨2, 1⟩)] =
      .ok [("EUR", ⟨0, 2⟩)] := by decide

/-- C5 as amended: rate-table construction fails entirely (no partial
table) exactly when the reference currency raw rate is absent from the
snapshot; a present-but-zero reference rate does not fail.  Whenever the
reference rate is present, every currency with a nonzero raw rate is
mapped to the exact multiplier referenceRawRate / currencyRawRate (which
is zero when the reference rate is zero), and currencies with a zero
raw rate are excluded from the table without error. -/
theorem claim_C5_rate_table (rates : List (String × Frac))
    (hnd : (rates.map Prod.fst).Nodup)
    (hden : ∀ p ∈ rates, p.2.den ≠ 0) :
    (getKey? rates "USD" = none →
      fetch_exchange_rates rates = .error "Missing exchange rate for USD") ∧
    (∀ u c r, getKey? rates "USD" = some u → getKey? rates c = some r →
      ∃ t, fetch_exchange_rates rates = .ok t ∧
        (r.num ≠ 0 → ∃ m, getKey? t c = some m ∧ m.toRat = u.toRat / r.toRat) ∧
        (r.num = 0 → getKey? t c = none)) := by
  constructor
  · intro h
    unfold fetch_exchange_rates
    rw [h]
  · intro u c r hu hr
    refine ⟨(rates.filter (fun p => p.2.num != 0)).map (fun p => (p.1, Frac.div u p.2)),
      ?_, ?_, ?_⟩
    · unfold fetch_exchange_rates
      rw [hu]
    · intro hrn
      refine ⟨Frac.div u r, ?_, ?_⟩
      · rw [getKey?_transform rates c u hnd, hr]
        simp [hrn]
      · exact Frac.toRat_div u r hrn (hden _ (getKey?_mem rates "USD" u hu))
          (hden _ (getKey?_mem rates c r hr))
    · intro hrz
      rw [getKey?_transform rates c u hnd, hr]
      simp [hrz]

/-- Witness for the amended C5: a snapshot with USD at 1, EUR at 2 and
a dead currency at raw rate 0. -/
theorem claim_C5_witness :
    (([("USD", (⟨1, 1⟩ : Frac)), ("EUR", ⟨2, 1⟩), ("XXX", ⟨0, 1⟩)].map Prod.fst).Nodup) ∧
    (∀ p ∈ [("USD", (⟨1, 1⟩ : Frac)), ("EUR", ⟨2, 1⟩), ("XXX", ⟨0, 1⟩)], p.2.den ≠ 0) ∧
    ((getKey? [("USD", (⟨1, 1⟩ : Frac)), ("EUR", ⟨2, 1⟩), ("XXX", ⟨0, 1⟩)] "USD" = none →
      fetch_exchange_rates [("USD", ⟨1, 1⟩), ("EUR", ⟨2, 1⟩), ("XXX", ⟨0, 1⟩)] =
        .error "Missing exchange rate for USD") ∧
    (∀ u c r,
      getKey? [("USD", (⟨1, 1⟩ : Frac)), ("EUR", ⟨2, 1⟩), ("XXX", ⟨0, 1⟩)] "USD" = some u →
      getKey? [("USD", (⟨1, 1⟩ : Frac)), ("EUR", ⟨2, 1⟩), ("XXX", ⟨0, 1⟩)] c = some r →
      ∃ t, fetch_exchange_rates [("USD", ⟨1, 1⟩), ("EUR", ⟨2, 1⟩), ("XXX", ⟨0, 1⟩)] = .ok t ∧
        (r.num ≠ 0 → ∃ m, getKey? t c = some m ∧ m.toRat = u.toRat / r.toRat) ∧
        (r.num = 0 → getKey? t c = none))) :=
  ⟨by decide, by decide,
    claim_C5_rate_table [("USD", ⟨1, 1⟩), ("EUR", ⟨2, 1⟩), ("XXX", ⟨0, 1⟩)]
      (by decide) (by decide)⟩

/-- C6: rounding is half-up, half-way cases going away from zero toward
the next cent, not banker s rounding: the input price 10.005 at
multiplier 1 converts to "10.01", not "10.00", and in general a price
of k cents plus half a cent converts to k + 1 cents for every
nonnegative k. -/
theorem claim_C6_half_up :
    parseDec "10.005" = some ⟨10005, 1000⟩ ∧
    centsToString (convert_currency ⟨10005, 1000⟩ ⟨1, 1⟩) = "10.01" ∧
    centsToString (convert_currency ⟨10005, 1000⟩ ⟨1, 1⟩) ≠ "10.00" ∧
    (∀ k : Int, 0 ≤ k → convert_currency ⟨2 * k + 1, 200⟩ ⟨1, 1⟩ = k + 1) := by
  refine ⟨by decide, by decide, by decide, ?_⟩
  intro k hk
  obtain ⟨n, rfl⟩ := Int.eq_ofNat_of_zero_le hk
  unfold convert_currency roundHalfUpAway
  simp only
  have hge : (0 : Int) ≤ (2 * (n : Int) + 1) * 1 * 100 := by positivity
  rw [if_neg (not_lt.mpr hge)]
  have habs : ((2 * (n : Int) + 1) * 1 * 100).natAbs = (2 * n + 1) * 100 := by
    rw [show (2 * (n : Int) + 1) * 1 * 100 = (((2 * n + 1) * 100 : Nat) : Int) by
      push_cast; ring]
    exact Int.natAbs_ofNat _
  rw [habs]
  have hm : (2 * ((2 * n + 1) * 100) + 200 * 1) / (2 * (200 * 1)) = n + 1 := by
    have h4 : 2 * ((2 * n + 1) * 100) + 200 * 1 = 400 * (n + 1) := by ring
    rw [h4]
    omega
  rw [hm]
  push_cast
  ring

/-- Witness for C6 (the general half-up statement applied at the
boundary of the claim, 10.005 = 1000 cents plus half a cent). -/
theorem claim_C6_witness :
    (0 : Int) ≤ 1000 ∧ convert_currency ⟨2 * 1000 + 1, 200⟩ ⟨1, 1⟩ = 1000 + 1 :=
  ⟨by decide, claim_C6_half_up.2.2.2 1000 (by decide)⟩

/-- C7: the archive writer given an empty record collection performs no
archive write (the `data[0].keys()` header derivation raises
`IndexError`, which the surrounding catch-all swallows before
`put_object` is reached) and no exception escapes to its caller — in
the embedding the function is total and returns `none` (no object
written). -/
theorem claim_C7_empty_archive : write_processed_csv_to_s3 [] = none := rfl

/-- C8: when the rate feed response lacks the reference (USD) rate, the
whole invocation fails before any file is read: `fetch_exchange_rates`
raises before the per-file loop and outside any handler, so the error
propagates out of `lambda_handler` and no read, normalization or
persistence step executes (no `HandlerResult` is produced at all). -/
theorem claim_C8_missing_reference_rate (ratesResponse : List (String × Frac))
    (records : List FileRef) (readFile : FileRef → Except String (List Row))
    (now : String) (h : getKey? ratesResponse "USD" = none) :
    lambda_handler ratesResponse records readFile now =
      .error "Missing exchange rate for USD" := by
  unfold lambda_handler fetch_exchange_rates
  rw [h]

/-- Witness for C8: a feed response that only quotes EUR. -/
theorem claim_C8_witness :
    getKey? [("EUR", (⟨2, 1⟩ : Frac))] "USD" = none ∧
    lambda_handler [("EUR", ⟨2, 1⟩)] [⟨"raw", "file.csv"⟩]
      (fun _ => .ok [[("price", "1.00"), ("currency", "EUR")]]) "T" =
      .error "Missing exchange rate for USD" :=
  ⟨by decide, claim_C8_missing_reference_rate _ _ _ _ (by decide)⟩

theorem handle_file_statusCode (t : RateTable) (now : String)
    (rf : FileRef → Except String (List Row)) (acc : HandlerResult) (r : FileRef) :
    (handle_file t now rf acc r).statusCode = acc.statusCode := by
  cases hread : rf r with
  | error e => simp [handle_file, hread]
  | ok csv =>
    cases hproc : process_csv_data t now csv with
    | error e => simp [handle_file, hread, hproc]
    | ok pd => simp [handle_file, hread, hproc]

theorem handle_file_body (t : RateTable) (now : String)
    (rf : FileRef → Except String (List Row)) (acc : HandlerResult) (r : FileRef) :
    (handle_file t now rf acc r).body = acc.body := by
  cases hread : rf r with
  | error e => simp [handle_file, hread]
  | ok csv =>
    cases hproc : process_csv_data t now csv with
    | error e => simp [handle_file, hread, hproc]
    | ok pd => simp [handle_file, hread, hproc]

theorem foldl_handle_file_ack (t : RateTable) (now : String)
    (rf : FileRef → Except String (List Row)) (records : List FileRef)
    (acc : HandlerResult) :
    (records.foldl (handle_file t now rf) acc).statusCode = acc.statusCode ∧
    (records.foldl (handle_file t now rf) acc).body = acc.body := by
  induction records generalizing acc with
  | nil => exact ⟨rfl, rfl⟩
  | cons r rest ih =>
    rw [List.foldl_cons]
    refine ⟨?_, ?_⟩
    · rw [(ih (handle_file t now rf acc r)).1, handle_file_statusCode]
    · rw [(ih (handle_file t now rf acc r)).2, handle_file_body]

/-- C9: whenever the rate table can be built (the reference rate is
present), the handler returns the fixed success acknowledgment with
status 200 once the per-file loop completes — for every batch of file
references and every behavior of the per-file read and of the rows, any
per-file exception having been caught and logged inside the loop. -/
theorem claim_C9_fixed_acknowledgment (ratesResponse : List (String × Frac))
    (records : List FileRef) (readFile : FileRef → Except String (List Row))
    (now : String) (u : Frac) (h : getKey? ratesResponse "USD" = some u) :
    ∃ res, lambda_handler ratesResponse records readFile now = .ok res ∧
      res.statusCode = 200 ∧ res.body = "\"Currency normalization complete!\"" := by
  unfold lambda_handler fetch_exchange_rates
  rw [h]
  exact ⟨_, rfl,
    (foldl_handle_file_ack _ now readFile records _).1,
    (foldl_handle_file_ack _ now readFile records _).2⟩

/-- Witness for C9: two files, the first of which fails to read and the
second of which normalizes — the invocation still acknowledges success. -/
theorem claim_C9_witness :
    getKey? [("USD", (⟨1, 1⟩ : Frac)), ("EUR", ⟨11, 10⟩)] "USD" = some ⟨1, 1⟩ ∧
    (∃ res, lambda_handler [("USD", ⟨1, 1⟩), ("EUR", ⟨11, 10⟩)]
        [⟨"raw", "bad.csv"⟩, ⟨"raw", "good.csv"⟩]
        (fun r => if r.key = "bad.csv" then .error "NoSuchKey"
          else .ok [[("zpid", "1"), ("price", "100"), ("currency", "EUR")]]) "T" =
        .ok res ∧
      res.statusCode = 200 ∧ res.body = "\"Currency normalization complete!\"") :=
  ⟨by decide,
    claim_C9_fixed_acknowledgment [("USD", ⟨1, 1⟩), ("EUR", ⟨11, 10⟩)]
      [⟨"raw", "bad.csv"⟩, ⟨"raw", "good.csv"⟩]
      (fun r => if r.key = "bad.csv" then .error "NoSuchKey"
        else .ok [[("zpid", "1"), ("price", "100"), ("currency", "EUR")]]) "T"
      ⟨1, 1⟩ (by decide)⟩

theorem dynamo_put_row_of_no_zpid (item : Row) (hz : item.get? "zpid" = none) :
    dynamo_put_row item = (none, item) := by
  unfold dynamo_put_row
  rw [hz]

theorem dynamo_put_row_of_zpid (r : Row) (z cdt : String)
    (hz : r.get? "zpid" = some z)
    (hc : (Row.set r "zpid" z).get? "creationDate" = some cdt) :
    dynamo_put_row r =
      (some (Row.set (Row.set r "zpid" z) "creationDate" cdt),
       Row.set (Row.set r "zpid" z) "creationDate" cdt) := by
  unfold dynamo_put_row
  simp only [hz, hc]

theorem mem_upload_puts_zpid (items : List Row) (x : Row)
    (hx : x ∈ (upload_to_dynamodb items).1) : (x.get? "zpid").isSome := by
  unfold upload_to_dynamodb at hx
  rcases List.mem_filterMap.mp hx with ⟨y, hy, hfst⟩
  rcases List.mem_map.mp hy with ⟨item, _, hput⟩
  subst hput
  unfold dynamo_put_row at hfst
  cases hz : item.get? "zpid" with
  | none => simp [hz] at hfst
  | some z =>
    simp only [hz] at hfst
    cases hc : (Row.set item "zpid" z).get? "creationDate" with
    | none => simp [hc] at hfst
    | some c =>
      simp only [hc, Option.some.injEq] at hfst
      subst hfst
      rw [Row.get?_set_ne _ _ _ _ (by decide), Row.get?_set_self]
      rfl

theorem write_processed_rows_eq (data : List Row) (fns : List String) (rows : List Row)
    (h : write_processed_csv_to_s3 data = some (fns, rows)) : rows = data := by
  cases data with
  | nil => exact absurd h (by simp [write_processed_csv_to_s3])
  | cons first rest =>
    simp only [write_processed_csv_to_s3] at h
    split at h
    · exact (congrArg Prod.snd (Option.some.inj h)).symm
    · exact absurd h (by simp)

/-- C10: a normalized record lacking the `zpid` identifier is skipped
by the DynamoDB write (the per-item `KeyError` is caught and logged,
the remaining items continue) yet is still among the records handed to
the archive writer afterwards — so it appears in the archive object
whenever one is written; records that do have `zpid` are put to the
table with `zpid` and `creationDate` coerced (by `str`, in place) on the
stored item. -/
theorem claim_C10_zpid_handling (items : List Row) (item : Row)
    (hmem : item ∈ items) (hz : item.get? "zpid" = none) :
    item ∉ (upload_to_dynamodb items).1 ∧
    item ∈ (upload_to_dynamodb items).2 ∧
    (∀ r ∈ items, ∀ z cdt, r.get? "zpid" = some z →
      (Row.set r "zpid" z).get? "creationDate" = some cdt →
      Row.set (Row.set r "zpid" z) "creationDate" cdt ∈ (upload_to_dynamodb items).1) ∧
    (∀ fns rows, write_processed_csv_to_s3 (upload_to_dynamodb items).2 = some (fns, rows) →
      item ∈ rows) := by
  refine ⟨?_, ?_, ?_, ?_⟩
  · intro hx
    have := mem_upload_puts_zpid items item hx
    rw [hz] at this
    simp at this
  · unfold upload_to_dynamodb
    have h2 : (dynamo_put_row item).2 ∈ (items.map dynamo_put_row).map Prod.snd :=
      List.mem_map_of_mem _ (List.mem_map_of_mem _ hmem)
    rw [dynamo_put_row_of_no_zpid item hz] at h2
    exact h2
  · intro r hr z cdt hrz hrc
    unfold upload_to_dynamodb
    refine List.mem_filterMap.mpr ⟨dynamo_put_row r, List.mem_map_of_mem _ hr, ?_⟩
    rw [dynamo_put_row_of_zpid r z cdt hrz hrc]
  · intro fns rows hw
    rw [write_processed_rows_eq _ _ _ hw]
    unfold upload_to_dynamodb
    have h2 : (dynamo_put_row item).2 ∈ (items.map dynamo_put_row).map Prod.snd :=
      List.mem_map_of_mem _ (List.mem_map_of_mem _ hmem)
    rw [dynamo_put_row_of_no_zpid item hz] at h2
    exact h2

/-- Witness for C10: a two-record batch whose second record has no
`zpid`. -/
theorem claim_C10_witness :
    [("price", "3.00"), ("currency", "USD"), ("creationDate", "T")] ∈
      [[("zpid", "1"), ("price", "110.00"), ("currency", "USD"), ("creationDate", "T")],
       [("price", "3.00"), ("currency", "USD"), ("creationDate", "T")]] ∧
    Row.get? [("price", "3.00"), ("currency", "USD"), ("creationDate", "T")] "zpid" = none ∧
    ([("price", "3.00"), ("currency", "USD"), ("creationDate", "T")] ∉
      (upload_to_dynamodb
        [[("zpid", "1"), ("price", "110.00"), ("currency", "USD"), ("creationDate", "T")],
         [("price", "3.00"), ("currency", "USD"), ("creationDate", "T")]]).1 ∧
    [("price", "3.00"), ("currency", "USD"), ("creationDate", "T")] ∈
      (upload_to_dynamodb
        [[("zpid", "1"), ("price", "110.00"), ("currency", "USD"), ("creationDate", "T")],
         [("price", "3.00"), ("currency", "USD"), ("creationDate", "T")]]).2 ∧
    (∀ r ∈ [[("zpid", "1"), ("price", "110.00"), ("currency", "USD"), ("creationDate", "T")],
         [("price", "3.00"), ("currency", "USD"), ("creationDate", "T")]],
      ∀ z cdt, Row.get? r "zpid" = some z →
      Row.get? (Row.set r "zpid" z) "creationDate" = some cdt →
      Row.set (Row.set r "zpid" z) "creationDate" cdt ∈
        (upload_to_dynamodb
          [[("zpid", "1"), ("price", "110.00"), ("currency", "USD"), ("creationDate", "T")],
           [("price", "3.00"), ("currency", "USD"), ("creationDate", "T")]]).1) ∧
    (∀ fns rows,
      write_processed_csv_to_s3
        (upload_to_dynamodb
          [[("zpid", "1"), ("price", "110.00"), ("currency", "USD"), ("creationDate", "T")],
           [("price", "3.00"), ("currency", "USD"), ("creationDate", "T")]]).2 =
        some (fns, rows) →
      [("price", "3.00"), ("currency", "USD"), ("creationDate", "T")] ∈ rows)) :=
  ⟨by decide, by decide,
    claim_C10_zpid_handling
      [[("zpid", "1"), ("price", "110.00"), ("currency", "USD"), ("creationDate", "T")],
       [("price", "3.00"), ("currency", "USD"), ("creationDate", "T")]]
      [("price", "3.00"), ("currency", "USD"), ("creationDate", "T")]
      (by decide) (by decide)⟩

end CurrencyNormalizer
